import Mathlib

/-!
Verification development for the go-socket.io server core.

The Go source is shallowly embedded: Go maps become association lists
(`List (K × V)`) with the update/delete semantics of Go map assignment,
struct methods become pure functions threading the state explicitly, and
goroutine-free slices of the code are translated line by line.  Iteration
order of a Go map is unspecified; the embedding fixes insertion order,
which is sound for the properties proved here (they are order-insensitive
or concern membership and cardinality only).
-/

namespace SocketIO

/-- Keys of an association list, in order. -/
def akeys {K V : Type} (m : List (K × V)) : List K := m.map Prod.fst

/-- Go map read `v, ok := m[k]`: the first binding of `k`, if any. -/
def alookup {K V : Type} [DecidableEq K] : List (K × V) → K → Option V
  | [], _ => none
  | (k', v) :: rest, k => if k' = k then some v else alookup rest k

/-- Go map write `m[k] = v`: replace the first binding of `k` in place,
or append a new binding when `k` is absent. -/
def ainsert {K V : Type} [DecidableEq K] : List (K × V) → K → V → List (K × V)
  | [], k, v => [(k, v)]
  | (k', v') :: rest, k, v =>
    if k' = k then (k, v) :: rest else (k', v') :: ainsert rest k v

/-- Go map delete `delete(m, k)`: drop the first binding of `k`. -/
def aerase {K V : Type} [DecidableEq K] : List (K × V) → K → List (K × V)
  | [], _ => []
  | (k', v') :: rest, k => if k' = k then rest else (k', v') :: aerase rest k

theorem alookup_ainsert_self {K V : Type} [DecidableEq K]
    (m : List (K × V)) (k : K) (v : V) : alookup (ainsert m k v) k = some v := by
  induction m with
  | nil => simp [ainsert, alookup]
  | cons hd tl ih =>
    by_cases h : hd.1 = k <;> simp [ainsert, alookup, h, ih]

theorem alookup_ainsert_ne {K V : Type} [DecidableEq K]
    (m : List (K × V)) (k k' : K) (v : V) (h : k' ≠ k) :
    alookup (ainsert m k v) k' = alookup m k' := by
  induction m with
  | nil => simp [ainsert, alookup, Ne.symm h]
  | cons hd tl ih =>
    by_cases hh : hd.1 = k
    · simp [ainsert, alookup, hh, Ne.symm h, h]
    · by_cases hk' : hd.1 = k' <;> simp [ainsert, alookup, hh, hk', h, Ne.symm h, ih]

theorem akeys_ainsert {K V : Type} [DecidableEq K]
    (m : List (K × V)) (k : K) (v : V) :
    akeys (ainsert m k v) = if k ∈ akeys m then akeys m else akeys m ++ [k] := by
  induction m with
  | nil => simp [ainsert, akeys]
  | cons hd tl ih =>
    by_cases h : hd.1 = k
    · simp [ainsert, akeys, h]
    · have : ¬k = hd.1 := fun e => h e.symm
      simp only [ainsert, if_neg h, akeys, List.map_cons, List.mem_cons, this, false_or]
      simp only [akeys] at ih
      by_cases hm : k ∈ tl.map Prod.fst <;> simp [hm, ih]

theorem akeys_aerase {K V : Type} [DecidableEq K]
    (m : List (K × V)) (k : K) :
    akeys (aerase m k) = (akeys m).erase k := by
  induction m with
  | nil => simp [aerase, akeys]
  | cons hd tl ih =>
    simp only [akeys] at ih ⊢
    by_cases h : hd.1 = k
    · subst h
      simp [aerase, List.erase_cons]
    · have hbeq : (hd.1 == k) = false := by simpa using h
      simp [aerase, h, List.erase_cons, hbeq, ih]

theorem alookup_eq_none_of_not_mem {K V : Type} [DecidableEq K]
    (m : List (K × V)) (k : K) (h : k ∉ akeys m) : alookup m k = none := by
  induction m with
  | nil => simp [alookup]
  | cons hd tl ih =>
    simp only [akeys, List.map_cons, List.mem_cons, not_or] at h
    have : hd.1 ≠ k := fun e => h.1 e.symm
    simpa [alookup, this] using ih (by simpa [akeys] using h.2)

theorem mem_akeys_of_alookup {K V : Type} [DecidableEq K]
    (m : List (K × V)) (k : K) (v : V) (h : alookup m k = some v) : k ∈ akeys m := by
  induction m with
  | nil => simp [alookup] at h
  | cons hd tl ih =>
    by_cases hh : hd.1 = k
    · simp [akeys, hh]
    · simp only [alookup, if_neg hh] at h
      simpa [akeys] using Or.inr (by simpa [akeys] using ih h)

theorem exists_alookup_of_mem {K V : Type} [DecidableEq K]
    (m : List (K × V)) (k : K) (h : k ∈ akeys m) : ∃ v, alookup m k = some v := by
  induction m with
  | nil => simp [akeys] at h
  | cons hd tl ih =>
    by_cases hh : hd.1 = k
    · exact ⟨hd.2, by simp [alookup, hh]⟩
    · have : k ∈ akeys tl := by
        rcases (by simpa [akeys] using h : k = hd.1 ∨ k ∈ akeys tl) with e | e
        · exact absurd e.symm hh
        · exact e
      rcases ih this with ⟨v, hv⟩
      exact ⟨v, by simp [alookup, hh, hv]⟩

theorem alookup_aerase_ne {K V : Type} [DecidableEq K]
    (m : List (K × V)) (k k' : K) (h : k' ≠ k) :
    alookup (aerase m k) k' = alookup m k' := by
  induction m with
  | nil => simp [aerase]
  | cons hd tl ih =>
    by_cases hh : hd.1 = k
    · simp [aerase, alookup, hh, h, Ne.symm h]
    · by_cases hk' : hd.1 = k' <;> simp [aerase, alookup, hh, hk', h, Ne.symm h, ih]

theorem alookup_aerase_self {K V : Type} [DecidableEq K]
    (m : List (K × V)) (k : K) (h : (akeys m).Nodup) :
    alookup (aerase m k) k = none := by
  induction m with
  | nil => simp [aerase, alookup]
  | cons hd tl ih =>
    simp only [akeys, List.map_cons, List.nodup_cons] at h
    by_cases hh : hd.1 = k
    · subst hh
      simp only [aerase, if_pos rfl]
      exact alookup_eq_none_of_not_mem tl hd.1 (by simpa [akeys] using h.1)
    · simpa [aerase, alookup, hh] using ih (by simpa [akeys] using h.2)

theorem nodup_akeys_ainsert {K V : Type} [DecidableEq K]
    (m : List (K × V)) (k : K) (v : V) (h : (akeys m).Nodup) :
    (akeys (ainsert m k v)).Nodup := by
  rw [akeys_ainsert]
  by_cases hm : k ∈ akeys m
  · simp only [if_pos hm]; exact h
  · simp only [if_neg hm]
    refine List.Nodup.append h (List.nodup_singleton k) ?_
    intro a ha hb
    simp only [List.mem_singleton] at hb
    exact hm (hb ▸ ha)

theorem nodup_akeys_aerase {K V : Type} [DecidableEq K]
    (m : List (K × V)) (k : K) (h : (akeys m).Nodup) :
    (akeys (aerase m k)).Nodup := by
  rw [akeys_aerase]; exact h.erase k

theorem aerase_ainsert_of_not_mem {K V : Type} [DecidableEq K]
    (m : List (K × V)) (k : K) (v : V) (h : k ∉ akeys m) :
    aerase (ainsert m k v) k = m := by
  induction m with
  | nil => simp [ainsert, aerase]
  | cons hd tl ih =>
    simp only [akeys, List.map_cons, List.mem_cons, not_or] at h
    have hh : hd.1 ≠ k := fun e => h.1 e.symm
    simp [ainsert, aerase, hh, ih (by simpa [akeys] using h.2)]

/-- Faithful translation of the source helper `getKeysOfMap`, including its
slip: the result slice is preallocated with `make([]K, len(m))` (length
`len(m)`, filled with zero values — the empty string for string keys) and
the keys are then appended after those zero values. -/
def getKeysOfMap {V : Type} (m : List (String × V)) : List String :=
  List.replicate m.length "" ++ akeys m

/-- Connection handle as seen by the room index: only the session
identifier `ID()` is consulted by `map.go`. -/
structure Conn where
  ID : String
deriving DecidableEq, Repr

/-- State of `connMap`: Go field `data map[string]Conn`, keyed by `conn.ID()`. -/
structure connMap where
  data : List (String × Conn)
deriving DecidableEq, Repr

/-- Source `newConnMap`. -/
def newConnMap : connMap := ⟨[]⟩

/-- Source `connMap.join`: `cm.data[conn.ID()] = conn`. -/
def connMap.join (cm : connMap) (conn : Conn) : connMap :=
  ⟨ainsert cm.data conn.ID conn⟩

/-- Source `connMap.leave`: `delete(cm.data, conn.ID())`. -/
def connMap.leave (cm : connMap) (conn : Conn) : connMap :=
  ⟨aerase cm.data conn.ID⟩

/-- Source `connMap.len`: `len(cm.data)`. -/
def connMap.len (cm : connMap) : Nat := cm.data.length

/-- Source `connMap.listConnID`: `getKeysOfMap(cm.data)` (with the
preallocation slip). -/
def connMap.listConnID (cm : connMap) : List String := getKeysOfMap cm.data

/-- Source `connMap.getConn`. -/
def connMap.getConn (cm : connMap) (connID : String) : Option Conn :=
  alookup cm.data connID

/-- Entries visited by `connMap.forEach`: it iterates `listConnID` and
skips identifiers whose lookup fails (`!ok || c == nil`).  Every callback
passed to it in this code base returns `true`, so `forEach` never breaks
early and its effect is a fold over this list. -/
def connMap.visited (cm : connMap) : List (String × Conn) :=
  cm.listConnID.filterMap (fun i => (cm.getConn i).map (fun c => (i, c)))

/-- State of `roomMap`: Go field `data map[string]*connMap`. -/
structure roomMap where
  data : List (String × connMap)
deriving DecidableEq, Repr

/-- Source `newRoomMap`. -/
def newRoomMap : roomMap := ⟨[]⟩

/-- Source `roomMap.join`: create the inner map on first insert, then
`cm.join(conn)`. -/
def roomMap.join (rm : roomMap) (room : String) (conn : Conn) : roomMap :=
  match alookup rm.data room with
  | none => ⟨ainsert rm.data room (newConnMap.join conn)⟩
  | some cm => ⟨ainsert rm.data room (cm.join conn)⟩

/-- Source `roomMap.listRoomID`: `getKeysOfMap(rm.data)` (with the
preallocation slip). -/
def roomMap.listRoomID (rm : roomMap) : List String := getKeysOfMap rm.data

/-- Source `roomMap.leave`: no-op when the room is absent; otherwise
remove the member and, if the inner map is now empty, delete the room
entry in the same step. -/
def roomMap.leave (rm : roomMap) (room : String) (conn : Conn) : roomMap :=
  match alookup rm.data room with
  | none => rm
  | some cm =>
    let cm2 := cm.leave conn
    if cm2.len = 0 then ⟨aerase rm.data room⟩ else ⟨ainsert rm.data room cm2⟩

/-- Source `roomMap.leaveAll`: snapshot `listRoomID`, then `leave` each. -/
def roomMap.leaveAll (rm : roomMap) (conn : Conn) : roomMap :=
  rm.listRoomID.foldl (fun acc r => acc.leave r conn) rm

/-- Source `roomMap.delete`. -/
def roomMap.delete (rm : roomMap) (room : String) : roomMap :=
  ⟨aerase rm.data room⟩

/-- Source `roomMap.getConnections`. -/
def roomMap.getConnections (rm : roomMap) (room : String) : Option connMap :=
  alookup rm.data room

/-- Entries visited by `roomMap.forEach`: it iterates `listRoomID` and
skips room identifiers whose lookup fails (`!ok || cm == nil`); in
particular the zero-value empty strings contributed by `getKeysOfMap` are
skipped whenever no room is literally named `""`.  Every callback passed
to it in this code base returns `true`, so its effect is a fold over this
list. -/
def roomMap.visited (rm : roomMap) : List (String × connMap) :=
  rm.listRoomID.filterMap (fun r => (rm.getConnections r).map (fun cm => (r, cm)))

/-- State of `broadcastLocal` (file `broadcast_local.go`).  The source
draws `uid` from `newV4UUID()`, whose definition is outside the embedded
tree; the identifier is an arbitrary string parameter here. -/
structure broadcastLocal where
  nsp : String
  uid : String
  roomsSync : roomMap
deriving DecidableEq, Repr

/-- Source `newBroadcastLocal` (uid passed explicitly, see above). -/
def newBroadcastLocal (nsp uid : String) : broadcastLocal :=
  ⟨nsp, uid, newRoomMap⟩

/-- Source `broadcastLocal.getOccupants`. -/
def broadcastLocal.getOccupants (bc : broadcastLocal) (room : String) : Option connMap :=
  bc.roomsSync.getConnections room

/-- Source `broadcastLocal.join`. -/
def broadcastLocal.join (bc : broadcastLocal) (room : String) (conn : Conn) : broadcastLocal :=
  { bc with roomsSync := bc.roomsSync.join room conn }

/-- Source `broadcastLocal.leave`. -/
def broadcastLocal.leave (bc : broadcastLocal) (room : String) (conn : Conn) : broadcastLocal :=
  { bc with roomsSync := bc.roomsSync.leave room conn }

/-- Source `broadcastLocal.leaveAll`. -/
def broadcastLocal.leaveAll (bc : broadcastLocal) (conn : Conn) : broadcastLocal :=
  { bc with roomsSync := bc.roomsSync.leaveAll conn }

/-- Source `broadcastLocal.clear`. -/
def broadcastLocal.clear (bc : broadcastLocal) (room : String) : broadcastLocal :=
  { bc with roomsSync := bc.roomsSync.delete room }

/-- Source `broadcastLocal.allRooms`: starts from an empty slice and
appends the room name for every entry `roomsSync.forEach` visits. -/
def broadcastLocal.allRooms (bc : broadcastLocal) : List String :=
  bc.roomsSync.visited.map Prod.fst

/-- Source `broadcastLocal.lenRoom`: increments a counter for every
visited entry whose room name equals `roomID` — it counts name matches,
not members. -/
def broadcastLocal.lenRoom (bc : broadcastLocal) (roomID : String) : Nat :=
  (bc.roomsSync.visited.filter (fun p => p.1 = roomID)).length

/-- Source `broadcastLocal.getRoomsByConn`: for every visited room,
append the room name once per member whose connection identifier matches. -/
def broadcastLocal.getRoomsByConn (bc : broadcastLocal) (connection : Conn) : List String :=
  bc.roomsSync.visited.foldl
    (fun rooms p =>
      p.2.visited.foldl
        (fun rooms q => if connection.ID = q.1 then rooms ++ [p.1] else rooms) rooms)
    []

/-- Source `broadcastLocal.send`: snapshot the occupants of the room and
emit the event to each; the returned list is the (connection identifier,
event) deliveries issued. -/
def broadcastLocal.send (bc : broadcastLocal) (room event : String) : List (String × String) :=
  match bc.getOccupants room with
  | none => []
  | some cm => cm.visited.map (fun q => (q.1, event))

/-- Source `broadcastLocal.sendAll`: for every visited room, emit the
event to every visited member. -/
def broadcastLocal.sendAll (bc : broadcastLocal) (event : String) : List (String × String) :=
  bc.roomsSync.visited.flatMap (fun p => p.2.visited.map (fun q => (q.1, event)))

/-- Source `broadcastLocal.forEach`: the members of the room the callback
is applied to, in visit order. -/
def broadcastLocal.forEachConns (bc : broadcastLocal) (room : String) : List Conn :=
  match bc.getOccupants room with
  | none => []
  | some cm => cm.visited.map Prod.snd

/-! Room-index invariants: a sequence of join/leave operations compared
against the set of connections joined but not yet left. -/

/-- A join or leave operation on one room index. -/
inductive RoomOp
  | join (room : String) (conn : Conn)
  | leave (room : String) (conn : Conn)
deriving DecidableEq, Repr

/-- Apply one operation to the room index. -/
def stepRoomOp (rm : roomMap) : RoomOp → roomMap
  | .join r c => rm.join r c
  | .leave r c => rm.leave r c

/-- Apply a sequence of operations to the empty room index. -/
def applyRoomOps (ops : List RoomOp) : roomMap :=
  ops.foldl stepRoomOp newRoomMap

/-- Specification-side step, following the words of the spec: joining
adds the connection identifier to the membership of that room (once);
leaving removes it. -/
def specMembersStep (g : String → List String) : RoomOp → String → List String
  | .join r c, room =>
    if r = room then (if c.ID ∈ g room then g room else g room ++ [c.ID]) else g room
  | .leave r c, room =>
    if r = room then (g room).erase c.ID else g room

/-- Specification-side membership: the connection identifiers joined to
each room but not yet left, after a sequence of operations. -/
def specMembers (ops : List RoomOp) : String → List String :=
  ops.foldl specMembersStep (fun _ => [])

/-- The room index agrees with a membership function: its outer keys are
distinct, each present room holds exactly the members the function gives
it, and only rooms with at least one member are present. -/
def AgreesWith (rm : roomMap) (g : String → List String) : Prop :=
  (akeys rm.data).Nodup ∧
  ∀ room, (match alookup rm.data room with
    | some cm => akeys cm.data = g room ∧ g room ≠ []
    | none => g room = [])

theorem agreesWith_step (rm : roomMap) (g : String → List String) (op : RoomOp)
    (h : AgreesWith rm g) :
    AgreesWith (stepRoomOp rm op) (fun room => specMembersStep g op room) := by
  obtain ⟨hnd, hroom⟩ := h
  cases op with
  | join r c =>
    have hr := hroom r
    cases hcm : alookup rm.data r with
    | none =>
      rw [hcm] at hr
      refine ⟨by simpa [stepRoomOp, roomMap.join, hcm] using nodup_akeys_ainsert _ _ _ hnd, ?_⟩
      intro room
      by_cases hq : room = r
      · subst hq
        simp [stepRoomOp, roomMap.join, hcm, alookup_ainsert_self, specMembersStep,
          newConnMap, connMap.join, ainsert, akeys, hr]
      · have : alookup (ainsert rm.data r (newConnMap.join c)) room = alookup rm.data room :=
          alookup_ainsert_ne _ _ _ _ hq
        simpa [stepRoomOp, roomMap.join, hcm, this, specMembersStep, Ne.symm hq]
          using hroom room
    | some cm =>
      rw [hcm] at hr
      refine ⟨by simpa [stepRoomOp, roomMap.join, hcm] using nodup_akeys_ainsert _ _ _ hnd, ?_⟩
      intro room
      by_cases hq : room = r
      · subst hq
        have hkeys := akeys_ainsert cm.data c.ID c
        simp only [stepRoomOp, roomMap.join, hcm, alookup_ainsert_self, specMembersStep,
          if_pos rfl, connMap.join]
        rw [hkeys, hr.1]
        by_cases hmem : c.ID ∈ g room <;> simp [hmem, hr.2]
      · have : alookup (ainsert rm.data r (cm.join c)) room = alookup rm.data room :=
          alookup_ainsert_ne _ _ _ _ hq
        simpa [stepRoomOp, roomMap.join, hcm, this, specMembersStep, Ne.symm hq]
          using hroom room
  | leave r c =>
    have hr := hroom r
    cases hcm : alookup rm.data r with
    | none =>
      rw [hcm] at hr
      refine ⟨by simpa [stepRoomOp, roomMap.leave, hcm] using hnd, ?_⟩
      intro room
      by_cases hq : room = r
      · subst hq
        simp [stepRoomOp, roomMap.leave, hcm, specMembersStep, hr]
      · simpa [stepRoomOp, roomMap.leave, hcm, specMembersStep, Ne.symm hq]
          using hroom room
    | some cm =>
      rw [hcm] at hr
      have hkeys : akeys (cm.leave c).data = (g r).erase c.ID := by
        simpa [connMap.leave, akeys_aerase] using congrArg (fun l => l.erase c.ID) hr.1
      by_cases hlen : (cm.leave c).len = 0
      · have hdata : (cm.leave c).data = [] := List.length_eq_zero.mp hlen
        have hempty : (g r).erase c.ID = [] := by
          rw [← hkeys, hdata]; rfl
        refine ⟨by simpa [stepRoomOp, roomMap.leave, hcm, hlen]
          using nodup_akeys_aerase _ _ hnd, ?_⟩
        intro room
        by_cases hq : room = r
        · subst hq
          simp [stepRoomOp, roomMap.leave, hcm, hlen, alookup_aerase_self _ _ hnd,
            specMembersStep, hempty]
        · have : alookup (aerase rm.data r) room = alookup rm.data room :=
            alookup_aerase_ne _ _ _ hq
          simpa [stepRoomOp, roomMap.leave, hcm, hlen, this, specMembersStep, Ne.symm hq]
            using hroom room
      · refine ⟨by simpa [stepRoomOp, roomMap.leave, hcm, hlen]
          using nodup_akeys_ainsert _ _ _ hnd, ?_⟩
        intro room
        by_cases hq : room = r
        · subst hq
          have hne : (g room).erase c.ID ≠ [] := by
            intro he
            apply hlen
            have h0 : akeys (cm.leave c).data = [] := hkeys.trans he
            have h1 : (cm.leave c).data.length = 0 := by
              simpa [akeys] using congrArg List.length h0
            simpa [connMap.len] using h1
          simp [stepRoomOp, roomMap.leave, hcm, hlen, alookup_ainsert_self,
            specMembersStep, hkeys, hne]
        · have : alookup (ainsert rm.data r (cm.leave c)) room = alookup rm.data room :=
            alookup_ainsert_ne _ _ _ _ hq
          simpa [stepRoomOp, roomMap.leave, hcm, hlen, this, specMembersStep, Ne.symm hq]
            using hroom room

theorem agreesWith_foldl (ops : List RoomOp) :
    ∀ (rm : roomMap) (g : String → List String), AgreesWith rm g →
      AgreesWith (ops.foldl stepRoomOp rm) (ops.foldl specMembersStep g) := by
  induction ops with
  | nil => intro rm g h; simpa using h
  | cons op rest ih =>
    intro rm g h
    simpa using ih _ _ (agreesWith_step rm g op h)

theorem agreesWith_applyRoomOps (ops : List RoomOp) :
    AgreesWith (applyRoomOps ops) (specMembers ops) := by
  refine agreesWith_foldl ops newRoomMap (fun _ => []) ⟨?_, ?_⟩
  · simp [newRoomMap, akeys]
  · intro room; simp [newRoomMap, alookup]

/-- C3: after every finite sequence of join/leave operations on the room
index, the cardinality of each room equals the number of connections
joined to it but not yet left, and the outer room entry exists exactly
when that cardinality is positive.  Removal of an emptied entry is a
single step of `roomMap.leave` together with the removal of the last
member, so no intermediate state with an empty entry ever exists. -/
theorem roomMap_join_leave_invariant (ops : List RoomOp) (room : String) :
    (match (applyRoomOps ops).getConnections room with
      | some cm => cm.len
      | none => 0) = (specMembers ops room).length
    ∧ (((applyRoomOps ops).getConnections room).isSome
        ↔ 0 < (specMembers ops room).length) := by
  have h := (agreesWith_applyRoomOps ops).2 room
  simp only [roomMap.getConnections]
  cases hcm : alookup (applyRoomOps ops).data room with
  | none =>
    rw [hcm] at h
    simp [h]
  | some cm =>
    rw [hcm] at h
    constructor
    · have : cm.data.length = (akeys cm.data).length := by simp [akeys]
      simp [connMap.len, this, h.1]
    · simpa using List.length_pos.mpr h.2

/-- C1: `lenRoom` does not return the cardinality of the room.  After two
distinct connections join room `r1`, the room holds two members, yet
`lenRoom "r1"` returns `1`: the source iterates the rooms and counts the
entries whose name equals the argument, so it returns at most one. -/
theorem lenRoom_returns_one_for_two_members :
    ((((newBroadcastLocal "/chat" "u1").join "r1" ⟨"A"⟩).join "r1" ⟨"B"⟩).lenRoom "r1" = 1)
    ∧ (((((newBroadcastLocal "/chat" "u1").join "r1" ⟨"A"⟩).join "r1" ⟨"B"⟩).getOccupants
        "r1").map connMap.len = some 2) := by decide

theorem filterMap_replicate_none {α β : Type} (f : α → Option β) (a : α)
    (hf : f a = none) (n : Nat) : (List.replicate n a).filterMap f = [] := by
  induction n with
  | zero => simp
  | succ k ih => simp [List.replicate_succ, hf, ih]

theorem map_fst_filterMap_lookup {V : Type} (m : List (String × V)) (l : List String)
    (h : ∀ r ∈ l, r ∈ akeys m) :
    (l.filterMap (fun r => (alookup m r).map (fun cm => (r, cm)))).map Prod.fst = l := by
  induction l with
  | nil => simp
  | cons hd tl ih =>
    obtain ⟨v, hv⟩ := exists_alookup_of_mem m hd (h hd (by simp))
    simp [hv, ih (fun r hr => h r (by simp [hr]))]

/-- C4: on a single node, `allRooms` returns exactly the keys of the
local room index — every current room name, nothing else, and no
duplicate or empty entries.  The zero-value empty strings that the buggy
`getKeysOfMap` prepends are filtered out by `forEach`, because looking
up the room `""` fails whenever no room carries the empty name (room
names are non-empty by the data model). -/
theorem allRooms_eq_room_keys (bc : broadcastLocal)
    (hnodup : (akeys bc.roomsSync.data).Nodup)
    (hempty : "" ∉ akeys bc.roomsSync.data) :
    bc.allRooms = akeys bc.roomsSync.data ∧ bc.allRooms.Nodup := by
  have hnone : alookup bc.roomsSync.data "" = none :=
    alookup_eq_none_of_not_mem _ _ hempty
  have hmain : bc.allRooms = akeys bc.roomsSync.data := by
    simp only [broadcastLocal.allRooms, roomMap.visited, roomMap.listRoomID,
      getKeysOfMap, roomMap.getConnections, List.filterMap_append, List.map_append]
    rw [filterMap_replicate_none _ _ (by simp [hnone]),
      map_fst_filterMap_lookup _ _ (fun r hr => hr)]
    simp
  exact ⟨hmain, hmain ▸ hnodup⟩

/-- Witness for C4 at a concrete two-room state. -/
theorem allRooms_eq_room_keys_witness :
    ((akeys (((newBroadcastLocal "/chat" "u1").join "r1" ⟨"A"⟩).join "r2"
        ⟨"B"⟩).roomsSync.data).Nodup
      ∧ "" ∉ akeys (((newBroadcastLocal "/chat" "u1").join "r1" ⟨"A"⟩).join "r2"
        ⟨"B"⟩).roomsSync.data)
    ∧ ((((newBroadcastLocal "/chat" "u1").join "r1" ⟨"A"⟩).join "r2" ⟨"B"⟩).allRooms
        = akeys (((newBroadcastLocal "/chat" "u1").join "r1" ⟨"A"⟩).join "r2"
          ⟨"B"⟩).roomsSync.data
      ∧ (((newBroadcastLocal "/chat" "u1").join "r1" ⟨"A"⟩).join "r2" ⟨"B"⟩).allRooms.Nodup) :=
  ⟨⟨by decide, by decide⟩,
    allRooms_eq_room_keys _ (by decide) (by decide)⟩

/-! Socket.IO connection layer: packet headers, the per-namespace handler
table, the namespace-connection view with its pending-ack map, the packet
handlers of the reader, and the close latch. -/

/-- Modelled from the spec: the constants `rootNamespace` and
`aliasRootNamespace` are declared outside the embedded files; the
glossary defines the alias root as the empty-string namespace,
canonicalized to `/`. -/
def rootNamespace : String := "/"

/-- Modelled from the spec: the empty-string namespace alias. -/
def aliasRootNamespace : String := ""

/-- Namespace canonicalization as performed by `server.go` and by the
reader: the alias root is rewritten to the canonical root. -/
def canonNsp (nsp : String) : String :=
  if nsp = aliasRootNamespace then rootNamespace else nsp

/-- Behaviour of one registered user event function when invoked: it
either returns a tuple of values or raises a runtime fault carrying a
payload. -/
inductive EvResult
  | retVals (n : Nat)
  | panics (msg : String)
deriving DecidableEq, Repr

/-- Source `funcHandler.Call`: the deferred `recover` traps a runtime
fault and converts it into an error (a non-error payload is wrapped as
`event call error: ...`); on success the returned values are surfaced
with a nil error. Values are abstracted to their count. -/
def funcHandlerCall : EvResult → List Nat × Option String
  | .retVals n => (List.range n, none)
  | .panics msg => ([], some ("event call error: " ++ msg))

/-- Per-namespace handler (file `part_004`, type `Handler`): the event
table, the outcome `onConnect` would report (none when unregistered or
succeeding), whether `onDisconnect` is registered, and the broadcaster.
The embedding models the local-adapter construction (`NewHandler` with a
nil Redis configuration). -/
structure HandlerM where
  broadcast : broadcastLocal
  events : List (String × EvResult)
  onConnectErr : Option String
  hasOnDisconnect : Bool
deriving DecidableEq, Repr

/-- Source `Handler.dispatchEvent`: a missing event function yields
`(nil, nil)`; otherwise the function is called through
`funcHandler.Call`. -/
def HandlerM.dispatchEvent (nh : HandlerM) (event : String) : List Nat × Option String :=
  match alookup nh.events event with
  | none => ([], none)
  | some f => funcHandlerCall f

/-- State of `namespaceConn` relevant to ack correlation: the monotonic
packet-ID counter and the pending-ack map (packet-ID to the identity of
the stored callback). -/
structure nspConnState where
  pkgID : Nat
  ack : List (Nat × Nat)
deriving DecidableEq, Repr

/-- Socket.IO packet types. -/
inductive SPacketType
  | connect | disconnect | event | ack | error | binaryEvent | binaryAck
deriving DecidableEq, Repr

/-- Outbound packet header (`parser.Header`): type, namespace, optional
packet ID and the needs-ack flag. -/
structure Header where
  ptype : SPacketType
  nsp : String
  id : Nat
  needAck : Bool
deriving DecidableEq, Repr

/-- An argument passed to `Emit`: a data value or a function (the
candidate ack callback), abstracted to an identity. -/
inductive EmitArg
  | value (v : Nat)
  | func (f : Nat)
deriving DecidableEq, Repr

/-- Modulus of the 64-bit packet-ID counter: `pkgID` is an
`atomic.Uint64`, so `pkgID.Add(1)` wraps modulo `2 ^ 64`. -/
def uint64Mod : Nat := 2 ^ 64

/-- Source `namespaceConn.Emit` up to the final `conn.write`: when the
last argument is a function, allocate the next packet-ID with
`nextPkgID` — `pkgID.Add(1)` on the `atomic.Uint64` counter, which wraps
modulo `2 ^ 64` — mark the header needs-ack, register the callback in
the pending-ack map and strip it from the outbound arguments.  Returns
the header, the remaining arguments and the updated view state. -/
def nspConnEmitStep (st : nspConnState) (nsp : String) (v : List EmitArg) :
    Header × List EmitArg × nspConnState :=
  let header : Header :=
    { ptype := .event, nsp := if nsp ≠ aliasRootNamespace then nsp else "",
      id := 0, needAck := false }
  match v.getLast? with
  | some (.func f) =>
    let id := (st.pkgID + 1) % uint64Mod
    ({ header with id := id, needAck := true }, v.dropLast,
      { pkgID := id, ack := ainsert st.ack id f })
  | _ => (header, v, st)

/-- Errors surfaced through the per-connection error path. -/
inductive SErr
  | failedConnectNamespace
  | decodeArgs
  | handleDispatch
  | eventCallErr (msg : String)
  | onConnectErr (msg : String)
deriving DecidableEq, Repr

/-- A packet submitted to the writer queue. -/
inductive OutPacket
  | eventPkt (h : Header) (event : String) (nargs : Nat)
  | ackPkt (nsp : String) (id : Nat) (nret : Nat)
  | connectReply (nsp : String) (sid : String)
deriving DecidableEq, Repr

/-- An inbound Socket.IO packet as the reader sees it after header
decode, together with the outcome its later `DecodeArgs` call will have
(the wire decoder itself lives outside the embedded files). -/
structure InPacket where
  ptype : SPacketType
  nsp : String
  id : Nat
  event : String
  decodeOk : Bool
deriving DecidableEq, Repr

/-- State of one Socket.IO connection (`conn` in `part_002`) as observed
by the embedded packet handlers: the engine session identifier, the
shared handler registry, the namespace-connection views, the sequences
of onError reports, written packets, invoked ack callbacks and
onDisconnect invocations, the close latch, and what closing the engine
session would return. -/
structure RConn where
  connID : String
  handlers : List (String × HandlerM)
  views : List (String × nspConnState)
  errs : List (String × SErr)
  writes : List OutPacket
  acksInvoked : List Nat
  disconnectCalls : List String
  closeOnceDone : Bool
  sessionClosed : Bool
  quitClosed : Bool
  sessionCloseErr : Option String
deriving DecidableEq, Repr

/-- Source `namespaceConn.Emit` as seen from the connection: update the
view state and submit the EVENT packet to the writer queue.  (`Emit` is
invoked on an existing view; an absent view leaves the state unchanged
here.) -/
def connEmit (c : RConn) (nsp eventName : String) (v : List EmitArg) : RConn :=
  match alookup c.views nsp with
  | none => c
  | some st =>
    let r := nspConnEmitStep st nsp v
    { c with views := ainsert c.views nsp r.2.2,
             writes := c.writes ++ [.eventPkt r.1 eventName r.2.1.length] }

/-- Source `conn.ackPacketHandler`: resolve the view (absent: discard and
return nil), `LoadAndDelete` the pending ack by packet ID (miss: no-op),
then decode the arguments (failure: onError, the entry stays removed) and
invoke the callback.  The stored value is always a `funcHandler` in this
embedding, so the type-assertion branch cannot fire. -/
def ackPacketHandler (c : RConn) (p : InPacket) : Option SErr × RConn :=
  match alookup c.views p.nsp with
  | none => (none, c)
  | some nc =>
    match alookup nc.ack p.id with
    | none => (none, c)
    | some f =>
      let c1 := { c with views := ainsert c.views p.nsp { nc with ack := aerase nc.ack p.id } }
      if p.decodeOk then
        (none, { c1 with acksInvoked := c1.acksInvoked ++ [f] })
      else
        (none, { c1 with errs := c1.errs ++ [(p.nsp, .decodeArgs)] })

/-- Source `conn.eventPacketHandler`: missing view or handler discards
the packet and returns nil; a decode failure reports onError and returns
`errDecodeArgs`; a dispatch error reports onError and returns
`errHandleDispatch`; returned values are written back as an ACK packet
carrying the inbound packet ID. -/
def eventPacketHandler (c : RConn) (p : InPacket) : Option SErr × RConn :=
  match alookup c.views p.nsp with
  | none => (none, c)
  | some _ =>
    match alookup c.handlers p.nsp with
    | none => (none, c)
    | some nh =>
      if ¬ p.decodeOk then
        (some .decodeArgs, { c with errs := c.errs ++ [(p.nsp, .decodeArgs)] })
      else
        match nh.dispatchEvent p.event with
        | (_, some msg) =>
          (some .handleDispatch, { c with errs := c.errs ++ [(p.nsp, .eventCallErr msg)] })
        | (ret, none) =>
          if ret.length > 0 then
            (none, { c with writes := c.writes ++ [.ackPkt p.nsp p.id ret.length] })
          else (none, c)

/-- Source `conn.connectPacketHandler`: decode the auth map; when no
handler is registered for the namespace, report
`errFailedConnectNamespace` through onError and return it; otherwise
create the view if absent (joining the personal room named by the
connection identifier), dispatch onConnect, and acknowledge the CONNECT
with the session identifier. -/
def connectPacketHandler (c : RConn) (p : InPacket) : Option SErr × RConn :=
  if ¬ p.decodeOk then
    (some .decodeArgs, { c with errs := c.errs ++ [(p.nsp, .decodeArgs)] })
  else
    match alookup c.handlers p.nsp with
    | none =>
      (some .failedConnectNamespace,
        { c with errs := c.errs ++ [(p.nsp, .failedConnectNamespace)] })
    | some nh =>
      let c1 :=
        match alookup c.views p.nsp with
        | some _ => c
        | none =>
          { c with
            views := ainsert c.views p.nsp { pkgID := 0, ack := [] },
            handlers := (ainsert c.handlers p.nsp
              { nh with broadcast := nh.broadcast.join c.connID ⟨c.connID⟩ }) }
      match nh.onConnectErr with
      | some msg =>
        (some .handleDispatch, { c1 with errs := c1.errs ++ [(p.nsp, .onConnectErr msg)] })
      | none =>
        (none, { c1 with writes := c1.writes ++ [.connectReply p.nsp c.connID] })

/-- Source `conn.disconnectPacketHandler`: decode (reason, details),
leave all rooms for the view through its broadcaster, delete the view,
then dispatch onDisconnect when a handler is registered. -/
def disconnectPacketHandler (c : RConn) (p : InPacket) : Option SErr × RConn :=
  if ¬ p.decodeOk then
    (some .decodeArgs, { c with errs := c.errs ++ [(p.nsp, .decodeArgs)] })
  else
    match alookup c.views p.nsp with
    | none => (none, c)
    | some _ =>
      let c1 :=
        match alookup c.handlers p.nsp with
        | some nh =>
          { c with handlers := (ainsert c.handlers p.nsp
              { nh with broadcast := nh.broadcast.leaveAll ⟨c.connID⟩ }) }
        | none => c
      let c2 := { c1 with views := aerase c1.views p.nsp }
      match alookup c2.handlers p.nsp with
      | none => (none, c2)
      | some nh =>
        if nh.hasOnDisconnect then
          (none, { c2 with disconnectCalls := c2.disconnectCalls ++ [p.nsp] })
        else (none, c2)

/-- Dispatch of one decoded packet by type, mirroring the switch in
`conn.serveRead`; the switch has no default, so other types are ignored. -/
def serveReadStep (c : RConn) (p : InPacket) : Option SErr × RConn :=
  match p.ptype with
  | .ack => ackPacketHandler c p
  | .connect => connectPacketHandler c p
  | .disconnect => disconnectPacketHandler c p
  | .event => eventPacketHandler c p
  | _ => (none, c)

/-- Source `conn.serveRead` over a finite inbound trace: rewrite the
alias root namespace, dispatch by type, and on a non-nil error report it
for the root namespace and return — the loop exits and the remaining
packets are never processed.  (The quit channel and the header-decode
failure path are not exercised by the traces considered here.) -/
def serveRead (c : RConn) : List InPacket → RConn
  | [] => c
  | p :: rest =>
    let p2 := if p.nsp = aliasRootNamespace then { p with nsp := rootNamespace } else p
    match serveReadStep c p2 with
    | (some e, c1) => { c1 with errs := c1.errs ++ [(rootNamespace, e)] }
    | (none, c1) => serveRead c1 rest

/-- C2: an emit whose trailing argument is a callback registers a pending
ack under a freshly allocated packet-ID; the first inbound ACK with that
ID removes the entry and invokes the callback exactly once, and a second
ACK with the same ID is a no-op.  The counter wraps modulo `2 ^ 64` as
`atomic.Uint64` does, so freshness is derived from the regime in which
the view operates until it has emitted `2 ^ 64 - 1` acked events: every
pending ID is at most the counter (the invariant the allocator maintains
while it has not wrapped) and the counter has not yet reached the wrap
point. -/
theorem pending_ack_consumed_exactly_once
    (c : RConn) (nsp ev : String) (args : List EmitArg) (f : Nat) (st : nspConnState)
    (hview : alookup c.views nsp = some st)
    (hfresh : ∀ k ∈ akeys st.ack, k ≤ st.pkgID)
    (hnowrap : st.pkgID + 1 < uint64Mod)
    (hlast : args.getLast? = some (.func f)) :
    let id := (st.pkgID + 1) % uint64Mod
    let c1 := connEmit c nsp ev args
    let p : InPacket := { ptype := .ack, nsp := nsp, id := id, event := "", decodeOk := true }
    let c2 := (ackPacketHandler c1 p).2
    id ∉ akeys st.ack
    ∧ alookup c1.views nsp = some { pkgID := id, ack := ainsert st.ack id f }
    ∧ c1.writes = c.writes
        ++ [.eventPkt { ptype := .event, id := id, needAck := true,
                        nsp := (if nsp ≠ aliasRootNamespace then nsp else "") }
              ev args.dropLast.length]
    ∧ (ackPacketHandler c1 p).1 = none
    ∧ c2.acksInvoked = c.acksInvoked ++ [f]
    ∧ alookup c2.views nsp = some { pkgID := id, ack := st.ack }
    ∧ ackPacketHandler c2 p = (none, c2) := by
  intro id c1 p c2
  have hide : id = st.pkgID + 1 := Nat.mod_eq_of_lt hnowrap
  have hid : id ∉ akeys st.ack := by
    intro hmem
    have hle := hfresh id hmem
    omega
  have hc1 : c1 = { c with
      views := ainsert c.views nsp { pkgID := id, ack := ainsert st.ack id f },
      writes := (c.writes
        ++ [.eventPkt { ptype := .event, id := id, needAck := true,
                        nsp := (if nsp ≠ aliasRootNamespace then nsp else "") }
              ev args.dropLast.length]) } := by
    simp only [c1, connEmit, hview, nspConnEmitStep, hlast]
  have hv1 : alookup c1.views nsp = some { pkgID := id, ack := ainsert st.ack id f } := by
    rw [hc1]; exact alookup_ainsert_self _ _ _
  have hackdel : aerase (ainsert st.ack id f) id = st.ack :=
    aerase_ainsert_of_not_mem _ _ _ hid
  have hstep : ackPacketHandler c1 p =
      (none, { c1 with
        views := ainsert c1.views nsp { pkgID := id, ack := st.ack },
        acksInvoked := c1.acksInvoked ++ [f] }) := by
    simp only [ackPacketHandler, hv1, alookup_ainsert_self, hackdel]
    rfl
  have hc2 : c2 = { c1 with
      views := ainsert c1.views nsp { pkgID := id, ack := st.ack },
      acksInvoked := c1.acksInvoked ++ [f] } := by
    simp only [c2, hstep]
  have hv2 : alookup c2.views nsp = some { pkgID := id, ack := st.ack } := by
    rw [hc2]; exact alookup_ainsert_self _ _ _
  refine ⟨hid, hv1, by rw [hc1], by rw [hstep], ?_, hv2, ?_⟩
  · rw [hc2, hc1]
  · simp only [ackPacketHandler, hv2, alookup_eq_none_of_not_mem st.ack id hid]

/-- Witness for C2: a concrete emit with callback 7 on namespace
`/chat`, acknowledged twice with packet-ID 1. -/
theorem pending_ack_consumed_exactly_once_witness :
    (alookup (RConn.mk "sid1" [] [("/chat", ⟨0, []⟩)] [] [] [] [] false false false none).views
        "/chat" = some ⟨0, []⟩
      ∧ (∀ k ∈ akeys (nspConnState.mk 0 []).ack, k ≤ (nspConnState.mk 0 []).pkgID)
      ∧ (nspConnState.mk 0 []).pkgID + 1 < uint64Mod
      ∧ ([EmitArg.value 5, EmitArg.func 7].getLast? = some (.func 7)))
    ∧ ((ackPacketHandler
          (connEmit (RConn.mk "sid1" [] [("/chat", ⟨0, []⟩)] [] [] [] [] false false false none)
            "/chat" "ping" [EmitArg.value 5, EmitArg.func 7])
          { ptype := .ack, nsp := "/chat", id := 1, event := "", decodeOk := true }).2.acksInvoked
        = [7]) :=
  ⟨⟨by decide, by decide, by decide, by decide⟩, by
    have h := pending_ack_consumed_exactly_once
      (RConn.mk "sid1" [] [("/chat", ⟨0, []⟩)] [] [] [] [] false false false none)
      "/chat" "ping" [EmitArg.value 5, EmitArg.func 7] 7 ⟨0, []⟩
      (by decide) (by decide) (by decide) (by decide)
    simpa using h.2.2.2.2.1⟩

/-- Modelled from the spec: the synthetic disconnect reason constant
`clientDisconnectMsg` is declared outside the embedded files; section
4.4 gives its value. -/
def clientDisconnectMsg : String := "client disconnected"

/-- Observable actions of the close sequence. -/
inductive CloseEv
  | leaveAllEv (nsp : String)
  | onDisconnectEv (nsp : String) (reason : String)
  | sessionCloseEv
  | quitEv
deriving DecidableEq, Repr

/-- Body of the close sequence, per namespace-connection view: leave all
rooms, then invoke onDisconnect (when registered) with the synthetic
reason; finally close the session and signal the quit latch. -/
def closeBodyEvents (c : RConn) : List CloseEv :=
  (c.views.flatMap (fun v =>
    [CloseEv.leaveAllEv v.1] ++
    (match alookup c.handlers v.1 with
     | some nh =>
       if nh.hasOnDisconnect then [CloseEv.onDisconnectEv v.1 clientDisconnectMsg] else []
     | none => [])))
  ++ [CloseEv.sessionCloseEv, CloseEv.quitEv]

/-- Broadcaster state after the close body ran `LeaveAll` for every
view. -/
def closeBodyHandlers (c : RConn) : List (String × HandlerM) :=
  c.views.foldl (fun hs v =>
    match alookup hs v.1 with
    | some nh => ainsert hs v.1 ({ nh with broadcast := nh.broadcast.leaveAll ⟨c.connID⟩ })
    | none => hs) c.handlers

/-- Source `conn.Close`: the body is gated by `closeOnce`; the first call
runs it (leave all rooms and dispatch onDisconnect per view, close the
engine session, close the quit channel) and returns the session close
result; any later call runs nothing and returns a nil error. -/
def connClose (c : RConn) : Option String × List CloseEv × RConn :=
  if c.closeOnceDone then (none, [], c)
  else
    (c.sessionCloseErr, closeBodyEvents c,
      { c with handlers := closeBodyHandlers c,
               closeOnceDone := true, sessionClosed := true, quitClosed := true })

/-- C8: the close body executes at most once; a second call to `Close`
is a no-op that returns without error, and a call on an already-closed
connection runs nothing. -/
theorem conn_close_idempotent (c : RConn) :
    let r1 := connClose c
    connClose r1.2.2 = (none, [], r1.2.2)
    ∧ (c.closeOnceDone = true → r1 = (none, [], c))
    ∧ (c.closeOnceDone = false →
        r1.2.1 = closeBodyEvents c ∧ r1.2.2.closeOnceDone = true
        ∧ r1.2.2.sessionClosed = true ∧ r1.2.2.quitClosed = true) := by
  intro r1
  by_cases h : c.closeOnceDone
  · refine ⟨?_, fun _ => by simp [r1, connClose, h], fun hfalse => absurd h (by simp [hfalse])⟩
    simp [r1, connClose, h]
  · refine ⟨?_, fun htrue => absurd htrue (by simp [h]), fun _ => ?_⟩
    · simp [r1, connClose, h]
    · simp [r1, connClose, h]

/-- Witness for C8 at a concrete connection with one view whose handler
has onDisconnect registered. -/
theorem conn_close_idempotent_witness :
    (connClose (connClose (RConn.mk "sid1"
        [("/chat", ⟨newBroadcastLocal "/chat" "u1", [], none, true⟩)]
        [("/chat", ⟨0, []⟩)] [] [] [] [] false false false none)).2.2
      = (none, [], (connClose (RConn.mk "sid1"
        [("/chat", ⟨newBroadcastLocal "/chat" "u1", [], none, true⟩)]
        [("/chat", ⟨0, []⟩)] [] [] [] [] false false false none)).2.2))
    ∧ (connClose (RConn.mk "sid1"
        [("/chat", ⟨newBroadcastLocal "/chat" "u1", [], none, true⟩)]
        [("/chat", ⟨0, []⟩)] [] [] [] [] false false false none)).2.1
      = [CloseEv.leaveAllEv "/chat", CloseEv.onDisconnectEv "/chat" "client disconnected",
         CloseEv.sessionCloseEv, CloseEv.quitEv] :=
  ⟨(conn_close_idempotent (RConn.mk "sid1"
      [("/chat", ⟨newBroadcastLocal "/chat" "u1", [], none, true⟩)]
      [("/chat", ⟨0, []⟩)] [] [] [] [] false false false none)).1,
   by decide⟩

/-! Server facade (`server.go`): the namespace-handler registry and the
room operations, which fall back to documented defaults when a namespace
has no registered handler (the nil-receiver checks of `Handler`). -/

/-- Server state: the namespace-handler registry (`nspHandlers`). -/
structure ServerM where
  nspHandlers : List (String × HandlerM)
deriving DecidableEq, Repr

/-- Source `Server.getNamespaceHandler`: canonicalize the alias root and
look the handler up, yielding none when the namespace is unregistered. -/
def ServerM.getNamespaceHandler (s : ServerM) (nsp : String) : Option HandlerM :=
  alookup s.nspHandlers (canonNsp nsp)

/-- Source `Server.JoinRoom` via `Handler.Join`: false on a nil handler. -/
def ServerM.JoinRoom (s : ServerM) (nsp room : String) (conn : Conn) : Bool × ServerM :=
  match s.getNamespaceHandler nsp with
  | none => (false, s)
  | some nh =>
    (true, { s with nspHandlers := (ainsert s.nspHandlers (canonNsp nsp)
      { nh with broadcast := nh.broadcast.join room conn }) })

/-- Source `Server.LeaveRoom` via `Handler.Leave`. -/
def ServerM.LeaveRoom (s : ServerM) (nsp room : String) (conn : Conn) : Bool × ServerM :=
  match s.getNamespaceHandler nsp with
  | none => (false, s)
  | some nh =>
    (true, { s with nspHandlers := (ainsert s.nspHandlers (canonNsp nsp)
      { nh with broadcast := nh.broadcast.leave room conn }) })

/-- Source `Server.LeaveAllRooms` via `Handler.LeaveAll`. -/
def ServerM.LeaveAllRooms (s : ServerM) (nsp : String) (conn : Conn) : Bool × ServerM :=
  match s.getNamespaceHandler nsp with
  | none => (false, s)
  | some nh =>
    (true, { s with nspHandlers := (ainsert s.nspHandlers (canonNsp nsp)
      { nh with broadcast := nh.broadcast.leaveAll conn }) })

/-- Source `Server.ClearRoom` via `Handler.Clear`. -/
def ServerM.ClearRoom (s : ServerM) (nsp room : String) : Bool × ServerM :=
  match s.getNamespaceHandler nsp with
  | none => (false, s)
  | some nh =>
    (true, { s with nspHandlers := (ainsert s.nspHandlers (canonNsp nsp)
      { nh with broadcast := nh.broadcast.clear room }) })

/-- Source `Server.BroadcastToRoom` via `Handler.Send`: the deliveries
issued and the boolean result. -/
def ServerM.BroadcastToRoom (s : ServerM) (nsp room event : String) :
    Bool × List (String × String) :=
  match s.getNamespaceHandler nsp with
  | none => (false, [])
  | some nh => (true, nh.broadcast.send room event)

/-- Source `Server.BroadcastToNamespace` via `Handler.SendAll`. -/
def ServerM.BroadcastToNamespace (s : ServerM) (nsp event : String) :
    Bool × List (String × String) :=
  match s.getNamespaceHandler nsp with
  | none => (false, [])
  | some nh => (true, nh.broadcast.sendAll event)

/-- Source `Server.RoomLen` via `Handler.Len`: -1 on a nil handler. -/
def ServerM.RoomLen (s : ServerM) (nsp room : String) : Int :=
  match s.getNamespaceHandler nsp with
  | none => -1
  | some nh => (nh.broadcast.lenRoom room : Int)

/-- Source `broadcast.Rooms` invoked with a nil connection (as
`Server.Rooms` does): `getRoomsByConn` compares `connection.ID()` inside
the member iteration, so the call dereferences the nil connection — and
faults — as soon as any member is visited; with no members it returns
the initial nil slice. -/
def broadcastLocal.getRoomsByConnNil (bc : broadcastLocal) : Except String (List String) :=
  if bc.roomsSync.visited.all (fun p => p.2.visited.isEmpty) then .ok []
  else .error "runtime error: invalid memory address or nil pointer dereference"

/-- Source `Server.Rooms` via `Handler.Rooms(nil)`: a nil handler returns
a nil slice (modelled as the empty list). -/
def ServerM.Rooms (s : ServerM) (nsp : String) : Except String (List String) :=
  match s.getNamespaceHandler nsp with
  | none => .ok []
  | some nh => nh.broadcast.getRoomsByConnNil

/-- Source `Server.ForEach` via `Handler.ForEach`: the members the
callback is applied to and the boolean result. -/
def ServerM.ForEach (s : ServerM) (nsp room : String) : Bool × List Conn :=
  match s.getNamespaceHandler nsp with
  | none => (false, [])
  | some nh => (true, nh.broadcast.forEachConns room)

/-- C9: with no handler registered for the namespace, every room
operation returns its documented default — false for the boolean
operations, -1 for `RoomLen`, the nil list for `Rooms` — nothing is
delivered, and the server state is unchanged. -/
theorem server_ops_on_unregistered_namespace
    (s : ServerM) (nsp room event : String) (conn : Conn)
    (h : s.getNamespaceHandler nsp = none) :
    s.JoinRoom nsp room conn = (false, s)
    ∧ s.LeaveRoom nsp room conn = (false, s)
    ∧ s.LeaveAllRooms nsp conn = (false, s)
    ∧ s.ClearRoom nsp room = (false, s)
    ∧ s.BroadcastToRoom nsp room event = (false, [])
    ∧ s.BroadcastToNamespace nsp event = (false, [])
    ∧ s.ForEach nsp room = (false, [])
    ∧ s.RoomLen nsp room = -1
    ∧ s.Rooms nsp = .ok [] := by
  simp [ServerM.JoinRoom, ServerM.LeaveRoom, ServerM.LeaveAllRooms, ServerM.ClearRoom,
    ServerM.BroadcastToRoom, ServerM.BroadcastToNamespace, ServerM.ForEach,
    ServerM.RoomLen, ServerM.Rooms, h]

/-- Witness for C9: a server with only `/chat` registered, queried for
`/admin`. -/
theorem server_ops_on_unregistered_namespace_witness :
    ((ServerM.mk [("/chat", ⟨newBroadcastLocal "/chat" "u1", [], none, false⟩)]).getNamespaceHandler
        "/admin" = none)
    ∧ ((ServerM.mk [("/chat", ⟨newBroadcastLocal "/chat" "u1", [], none,
        false⟩)]).RoomLen "/admin" "r1" = -1) :=
  ⟨by decide,
    (server_ops_on_unregistered_namespace
      (ServerM.mk [("/chat", ⟨newBroadcastLocal "/chat" "u1", [], none, false⟩)])
      "/admin" "r1" "msg" ⟨"A"⟩ (by decide)).2.2.2.2.2.2.2.1⟩

/-- C10: an EVENT packet for a namespace with a registered handler and an
existing view, whose event name has no registered event function, is
dispatched to no values and no error: no ACK is written back, no onError
fires, the state is untouched and the reader continues with the next
packet. -/
theorem event_without_registered_function_is_ignored
    (c : RConn) (p : InPacket) (rest : List InPacket) (nh : HandlerM) (st : nspConnState)
    (hp : p.ptype = .event)
    (hnsp : p.nsp ≠ aliasRootNamespace)
    (hview : alookup c.views p.nsp = some st)
    (hhand : alookup c.handlers p.nsp = some nh)
    (hev : alookup nh.events p.event = none)
    (hdec : p.decodeOk = true) :
    eventPacketHandler c p = (none, c)
    ∧ serveRead c (p :: rest) = serveRead c rest := by
  have hstep : eventPacketHandler c p = (none, c) := by
    simp [eventPacketHandler, hview, hhand, hdec, HandlerM.dispatchEvent, hev]
  refine ⟨hstep, ?_⟩
  simp [serveRead, serveReadStep, hnsp, hp, hstep]

/-- Witness for C10: the unregistered event `nope` leaves the connection
unchanged and the reader then processes a registered event. -/
theorem event_without_registered_function_is_ignored_witness :
    (eventPacketHandler
        (RConn.mk "sidA" [("/chat", ⟨newBroadcastLocal "/chat" "u1", [("ok", .retVals 1)],
            none, false⟩)]
          [("/chat", ⟨0, []⟩)] [] [] [] [] false false false none)
        (InPacket.mk .event "/chat" 4 "nope" true)).2
      = RConn.mk "sidA" [("/chat", ⟨newBroadcastLocal "/chat" "u1", [("ok", .retVals 1)],
          none, false⟩)]
        [("/chat", ⟨0, []⟩)] [] [] [] [] false false false none
    ∧ serveRead
        (RConn.mk "sidA" [("/chat", ⟨newBroadcastLocal "/chat" "u1", [("ok", .retVals 1)],
            none, false⟩)]
          [("/chat", ⟨0, []⟩)] [] [] [] [] false false false none)
        [InPacket.mk .event "/chat" 4 "nope" true, InPacket.mk .event "/chat" 5 "ok" true]
      = serveRead
        (RConn.mk "sidA" [("/chat", ⟨newBroadcastLocal "/chat" "u1", [("ok", .retVals 1)],
            none, false⟩)]
          [("/chat", ⟨0, []⟩)] [] [] [] [] false false false none)
        [InPacket.mk .event "/chat" 5 "ok" true] :=
  ⟨by
    have h := event_without_registered_function_is_ignored
      (RConn.mk "sidA" [("/chat", ⟨newBroadcastLocal "/chat" "u1", [("ok", .retVals 1)],
          none, false⟩)]
        [("/chat", ⟨0, []⟩)] [] [] [] [] false false false none)
      (InPacket.mk .event "/chat" 4 "nope" true) [] ⟨newBroadcastLocal "/chat" "u1",
        [("ok", .retVals 1)], none, false⟩ ⟨0, []⟩
      (by decide) (by decide) (by decide) (by decide) (by decide) (by decide)
    rw [h.1],
   event_without_registered_function_is_ignored
      (RConn.mk "sidA" [("/chat", ⟨newBroadcastLocal "/chat" "u1", [("ok", .retVals 1)],
          none, false⟩)]
        [("/chat", ⟨0, []⟩)] [] [] [] [] false false false none)
      (InPacket.mk .event "/chat" 4 "nope" true)
      [InPacket.mk .event "/chat" 5 "ok" true]
      ⟨newBroadcastLocal "/chat" "u1", [("ok", .retVals 1)], none, false⟩ ⟨0, []⟩
      (by decide) (by decide) (by decide) (by decide) (by decide) (by decide) |>.2⟩

/-- C5 (amended): a runtime fault inside a user event function is
trapped by `funcHandler.Call` and surfaced as an onError report for the
namespace (followed by a dispatch error reported for the root
namespace), and the connection is not closed; however `serveRead`
returns after reporting, so the remaining packets of the trace are never
processed. -/
theorem handler_panic_trapped_but_reader_stops
    (c : RConn) (p : InPacket) (rest : List InPacket) (nh : HandlerM)
    (msg : String) (st : nspConnState)
    (hp : p.ptype = .event)
    (hnsp : p.nsp ≠ aliasRootNamespace)
    (hview : alookup c.views p.nsp = some st)
    (hhand : alookup c.handlers p.nsp = some nh)
    (hev : alookup nh.events p.event = some (.panics msg))
    (hdec : p.decodeOk = true) :
    serveRead c (p :: rest) =
      { c with errs := c.errs ++ [(p.nsp, .eventCallErr ("event call error: " ++ msg))]
          ++ [(rootNamespace, .handleDispatch)] }
    ∧ serveRead c (p :: rest) = serveRead c [p]
    ∧ (serveRead c (p :: rest)).sessionClosed = c.sessionClosed
    ∧ (serveRead c (p :: rest)).quitClosed = c.quitClosed
    ∧ (serveRead c (p :: rest)).views = c.views
    ∧ (serveRead c (p :: rest)).writes = c.writes := by
  have hstep : eventPacketHandler c p =
      (some .handleDispatch,
        { c with errs := c.errs ++ [(p.nsp, .eventCallErr ("event call error: " ++ msg))] }) := by
    simp [eventPacketHandler, hview, hhand, hdec, HandlerM.dispatchEvent, hev, funcHandlerCall]
  have hmain : serveRead c (p :: rest) =
      { c with errs := c.errs ++ [(p.nsp, .eventCallErr ("event call error: " ++ msg))]
          ++ [(rootNamespace, .handleDispatch)] } := by
    simp [serveRead, serveReadStep, hnsp, hp, hstep]
  have honce : serveRead c [p] =
      { c with errs := c.errs ++ [(p.nsp, .eventCallErr ("event call error: " ++ msg))]
          ++ [(rootNamespace, .handleDispatch)] } := by
    simp [serveRead, serveReadStep, hnsp, hp, hstep]
  refine ⟨hmain, hmain.trans honce.symm, ?_, ?_, ?_, ?_⟩ <;> rw [hmain]

/-- Witness for the amended C5 at a concrete trace: the fault in `boom`
is reported and the trailing packet is never processed. -/
theorem handler_panic_trapped_but_reader_stops_witness :
    (alookup (RConn.mk "sidB" [("/chat", ⟨newBroadcastLocal "/chat" "u2",
          [("boom", .panics "kaboom")], none, false⟩)]
        [("/chat", ⟨0, []⟩)] [] [] [] [] false false false none).views "/chat"
        = some ⟨0, []⟩
      ∧ alookup (RConn.mk "sidB" [("/chat", ⟨newBroadcastLocal "/chat" "u2",
          [("boom", .panics "kaboom")], none, false⟩)]
        [("/chat", ⟨0, []⟩)] [] [] [] [] false false false none).handlers "/chat"
        = some ⟨newBroadcastLocal "/chat" "u2", [("boom", .panics "kaboom")], none, false⟩)
    ∧ serveRead (RConn.mk "sidB" [("/chat", ⟨newBroadcastLocal "/chat" "u2",
          [("boom", .panics "kaboom")], none, false⟩)]
        [("/chat", ⟨0, []⟩)] [] [] [] [] false false false none)
        [InPacket.mk .event "/chat" 1 "boom" true, InPacket.mk .event "/chat" 2 "boom" true]
      = serveRead (RConn.mk "sidB" [("/chat", ⟨newBroadcastLocal "/chat" "u2",
          [("boom", .panics "kaboom")], none, false⟩)]
        [("/chat", ⟨0, []⟩)] [] [] [] [] false false false none)
        [InPacket.mk .event "/chat" 1 "boom" true] :=
  ⟨⟨by decide, by decide⟩,
    (handler_panic_trapped_but_reader_stops
      (RConn.mk "sidB" [("/chat", ⟨newBroadcastLocal "/chat" "u2",
          [("boom", .panics "kaboom")], none, false⟩)]
        [("/chat", ⟨0, []⟩)] [] [] [] [] false false false none)
      (InPacket.mk .event "/chat" 1 "boom" true)
      [InPacket.mk .event "/chat" 2 "boom" true]
      ⟨newBroadcastLocal "/chat" "u2", [("boom", .panics "kaboom")], none, false⟩
      "kaboom" ⟨0, []⟩
      (by decide) (by decide) (by decide) (by decide) (by decide) (by decide)).2.1⟩

/-- Counterexample to C5 as stated: after the handler for `boom` raises
a fault, the fault is trapped and reported, but the reader does not
continue — the following `ok` event, which alone would produce an ACK
write, is never processed. -/
theorem handler_panic_counterexample :
    serveRead
        (RConn.mk "sidA" [("/chat", ⟨newBroadcastLocal "/chat" "u1",
            [("boom", .panics "kaboom"), ("ok", .retVals 1)], none, false⟩)]
          [("/chat", ⟨0, []⟩)] [] [] [] [] false false false none)
        [InPacket.mk .event "/chat" 1 "boom" true, InPacket.mk .event "/chat" 5 "ok" true]
      = serveRead
        (RConn.mk "sidA" [("/chat", ⟨newBroadcastLocal "/chat" "u1",
            [("boom", .panics "kaboom"), ("ok", .retVals 1)], none, false⟩)]
          [("/chat", ⟨0, []⟩)] [] [] [] [] false false false none)
        [InPacket.mk .event "/chat" 1 "boom" true]
    ∧ (serveRead
        (RConn.mk "sidA" [("/chat", ⟨newBroadcastLocal "/chat" "u1",
            [("boom", .panics "kaboom"), ("ok", .retVals 1)], none, false⟩)]
          [("/chat", ⟨0, []⟩)] [] [] [] [] false false false none)
        [InPacket.mk .event "/chat" 1 "boom" true, InPacket.mk .event "/chat" 5 "ok" true]).writes
      = []
    ∧ (serveRead
        (RConn.mk "sidA" [("/chat", ⟨newBroadcastLocal "/chat" "u1",
            [("boom", .panics "kaboom"), ("ok", .retVals 1)], none, false⟩)]
          [("/chat", ⟨0, []⟩)] [] [] [] [] false false false none)
        [InPacket.mk .event "/chat" 5 "ok" true]).writes
      = [OutPacket.ackPkt "/chat" 5 1]
    ∧ (serveRead
        (RConn.mk "sidA" [("/chat", ⟨newBroadcastLocal "/chat" "u1",
            [("boom", .panics "kaboom"), ("ok", .retVals 1)], none, false⟩)]
          [("/chat", ⟨0, []⟩)] [] [] [] [] false false false none)
        [InPacket.mk .event "/chat" 1 "boom" true, InPacket.mk .event "/chat" 5 "ok" true]).errs
      = [("/chat", .eventCallErr "event call error: kaboom"), ("/", .handleDispatch)] := by
  decide

/-- C6 (amended): a CONNECT for a namespace with no registered handler
reports `failed to connect to the namespace` through the onError path
(for that namespace, then for the root namespace) and terminates the
read loop, so no further packets are processed; no namespace-connection
view is created.  The connection itself is not closed by this path: the
session and the quit latch are untouched. -/
theorem connect_unknown_namespace_reports_and_stops
    (c : RConn) (p : InPacket) (rest : List InPacket)
    (hp : p.ptype = .connect)
    (hnsp : p.nsp ≠ aliasRootNamespace)
    (hhand : alookup c.handlers p.nsp = none)
    (hdec : p.decodeOk = true) :
    serveRead c (p :: rest) =
      { c with errs := c.errs ++ [(p.nsp, .failedConnectNamespace)]
          ++ [(rootNamespace, .failedConnectNamespace)] }
    ∧ serveRead c (p :: rest) = serveRead c [p]
    ∧ (serveRead c (p :: rest)).views = c.views
    ∧ (serveRead c (p :: rest)).sessionClosed = c.sessionClosed
    ∧ (serveRead c (p :: rest)).quitClosed = c.quitClosed := by
  have hstep : connectPacketHandler c p =
      (some .failedConnectNamespace,
        { c with errs := c.errs ++ [(p.nsp, .failedConnectNamespace)] }) := by
    simp [connectPacketHandler, hdec, hhand]
  have hmain : serveRead c (p :: rest) =
      { c with errs := c.errs ++ [(p.nsp, .failedConnectNamespace)]
          ++ [(rootNamespace, .failedConnectNamespace)] } := by
    simp [serveRead, serveReadStep, hnsp, hp, hstep]
  have honce : serveRead c [p] =
      { c with errs := c.errs ++ [(p.nsp, .failedConnectNamespace)]
          ++ [(rootNamespace, .failedConnectNamespace)] } := by
    simp [serveRead, serveReadStep, hnsp, hp, hstep]
  refine ⟨hmain, hmain.trans honce.symm, ?_, ?_, ?_⟩ <;> rw [hmain]

/-- Witness for the amended C6 at a concrete trace: the CONNECT to
`/admin` is reported, the view map is untouched, and the trailing packet
is never processed. -/
theorem connect_unknown_namespace_reports_and_stops_witness :
    (alookup (RConn.mk "sidC" [("/chat", ⟨newBroadcastLocal "/chat" "u3", [], none, false⟩)]
        [] [] [] [] [] false false false none).handlers "/admin" = none)
    ∧ (serveRead (RConn.mk "sidC" [("/chat", ⟨newBroadcastLocal "/chat" "u3", [], none, false⟩)]
        [] [] [] [] [] false false false none)
        [InPacket.mk .connect "/admin" 0 "" true, InPacket.mk .connect "/chat" 0 "" true]).views
      = (RConn.mk "sidC" [("/chat", ⟨newBroadcastLocal "/chat" "u3", [], none, false⟩)]
        [] [] [] [] [] false false false none).views :=
  ⟨by decide,
    (connect_unknown_namespace_reports_and_stops
      (RConn.mk "sidC" [("/chat", ⟨newBroadcastLocal "/chat" "u3", [], none, false⟩)]
        [] [] [] [] [] false false false none)
      (InPacket.mk .connect "/admin" 0 "" true)
      [InPacket.mk .connect "/chat" 0 "" true]
      (by decide) (by decide) (by decide) (by decide)).2.2.1⟩

/-- Counterexample to C6 as stated: a CONNECT to the unregistered
namespace `/admin` reports the error and creates no view, but the
connection is not closed — the session and the quit latch both remain
open, contradicting the closes-the-connection part of the claim. -/
theorem connect_unknown_namespace_counterexample :
    (serveRead
        (RConn.mk "sidA" [("/chat", ⟨newBroadcastLocal "/chat" "u1", [], none, false⟩)]
          [] [] [] [] [] false false false none)
        [InPacket.mk .connect "/admin" 0 "" true]).errs
      = [("/admin", .failedConnectNamespace), ("/", .failedConnectNamespace)]
    ∧ alookup (serveRead
        (RConn.mk "sidA" [("/chat", ⟨newBroadcastLocal "/chat" "u1", [], none, false⟩)]
          [] [] [] [] [] false false false none)
        [InPacket.mk .connect "/admin" 0 "" true]).views "/admin" = none
    ∧ (serveRead
        (RConn.mk "sidA" [("/chat", ⟨newBroadcastLocal "/chat" "u1", [], none, false⟩)]
          [] [] [] [] [] false false false none)
        [InPacket.mk .connect "/admin" 0 "" true]).sessionClosed = false
    ∧ (serveRead
        (RConn.mk "sidA" [("/chat", ⟨newBroadcastLocal "/chat" "u1", [], none, false⟩)]
          [] [] [] [] [] false false false none)
        [InPacket.mk .connect "/admin" 0 "" true]).quitClosed = false := by
  decide

/-! Remote broadcaster cluster requests (`conn_nsp.go`, type
`redisBroadcastRemoteV9`).  A request is modelled by the outcomes of its
bus interactions and the matching responses that would arrive; the
result is an `Option`: `some` is the value the call returns, `none`
means the call never returns — it blocks forever on its `done` channel,
since the source has no timeout. -/

/-- Outcomes of the bus interactions of one cluster request. -/
structure ClusterEnv where
  marshalOk : Bool
  numSubRes : Option Nat
  publishOk : Bool
deriving DecidableEq, Repr

/-- Completion of a `lenRoom` request: each matching response increments
`msgCount` and adds its `Connections` field; `done` fires when
`msgCount` reaches `numSub`.  With `numSub = 0` or fewer responses than
`numSub` the signal never fires and the caller blocks. -/
def lenRoomWait (numSub : Nat) (resps : List Int) : Option Int :=
  if numSub = 0 then none
  else if resps.length < numSub then none
  else some ((resps.take numSub).foldl (fun a b => a + b) 0)

/-- Source `redisBroadcastRemoteV9.lenRoom`: -1 when marshalling the
request fails, when `PubSubNumSub` reports an error, or when `Publish`
fails; otherwise wait on `done` and return the summed connections. -/
def redisLenRoom (env : ClusterEnv) (resps : List Int) : Option Int :=
  if ¬env.marshalOk then some (-1)
  else
    match env.numSubRes with
    | none => some (-1)
    | some numSub =>
      if ¬env.publishOk then some (-1)
      else lenRoomWait numSub resps

/-- One `allRoomResponse` as `onResponse` sees it: either a well-formed
room list, or a payload whose `Rooms` field is not an array — the latter
fires `done` immediately without counting. -/
inductive AllRoomResp
  | roomsResp (rs : List String)
  | malformed
deriving DecidableEq, Repr

/-- Completion of an `allRooms` request: well-formed responses merge
their rooms into the set and increment `msgCount`, firing `done` when it
reaches `numSub`; a malformed response fires `done` at once.  If the
responses run out first, the caller blocks. -/
def allRoomsWait (numSub : Nat) : List AllRoomResp → List String → Nat → Option (List String)
  | [], _, _ => none
  | .malformed :: _, acc, _ => some acc
  | .roomsResp rs :: rest, acc, msgCount =>
    let acc2 := acc ++ rs.filter (fun r => ¬ r ∈ acc)
    if numSub = msgCount + 1 then some acc2
    else allRoomsWait numSub rest acc2 (msgCount + 1)

/-- Source `redisBroadcastRemoteV9.allRooms`: the marshal error is
discarded (`reqJSON, _ :=`), the `PubSubNumSub` error is discarded
(`numSub, _ :=`, leaving the 0 the helper returned alongside), a
`Publish` failure returns the empty list, and otherwise the caller
blocks on `done`. -/
def redisAllRooms (env : ClusterEnv) (resps : List AllRoomResp) : Option (List String) :=
  let numSub := env.numSubRes.getD 0
  if ¬env.publishOk then some []
  else allRoomsWait numSub resps [] 0

/-- C7: `lenRoom` does return the sentinel -1 for each of its bus-error
paths, and `allRooms` returns the empty list when `Publish` fails; but
when `PubSubNumSub` fails, `allRooms` discards the error, keeps
`numSub = 0`, publishes, and then blocks forever on `done` — no matter
how many well-formed responses arrive — instead of returning the empty
list.  No timeout exists anywhere in the source, so the timeout case of
the claim cannot produce a sentinel either. -/
theorem cluster_bus_error_sentinels :
    redisLenRoom ⟨false, some 2, true⟩ [] = some (-1)
    ∧ redisLenRoom ⟨true, none, true⟩ [] = some (-1)
    ∧ redisLenRoom ⟨true, some 2, false⟩ [] = some (-1)
    ∧ redisAllRooms ⟨true, some 2, false⟩ [] = some []
    ∧ redisAllRooms ⟨true, none, true⟩ [.roomsResp ["r1"], .roomsResp ["r2"]] = none := by
  decide

end SocketIO
